import Mathlib

/-!
Verification development for the ReSub `StoreBase` pub/sub core
(`src/StoreBase.ts`).

The TypeScript source is shallowly embedded: the per-store registries and
the process-wide shared state (`_pendingCallbacks`, `_triggerBlockCount`,
`_bypassThrottle`, `_isTriggering`, `_triggerPending`) become explicit
state records threaded through pure Lean functions.  JavaScript objects
and `Map`s become association lists (insertion-ordered, as `Map` is),
`undefined`-able numbers become `Option Nat`, and JavaScript truthiness
tests on such values are modelled explicitly.  Fallible operations
(`assert` failures) return `Except AssertError`.
-/

namespace ReSub

/-- Association-list lookup, modelling both JS object indexing
(`dict[key]`, `undefined` when absent) and `Map.prototype.get`. -/
def dget {κ α : Type} [DecidableEq κ] : List (κ × α) → κ → Option α
  | [], _ => none
  | (k', v) :: rest, k => if k' = k then some v else dget rest k

/-- Association-list update, modelling JS property assignment and
`Map.prototype.set`: an existing key keeps its position, a new key is
appended at the end (insertion order). -/
def dset {κ α : Type} [DecidableEq κ] : List (κ × α) → κ → α → List (κ × α)
  | [], k, v => [(k, v)]
  | (k', v') :: rest, k, v =>
    if k' = k then (k, v) :: rest else (k', v') :: dset rest k v

/-- Association-list removal, modelling JS `delete dict[key]` and
`Map.prototype.delete`. -/
def ddel {κ α : Type} [DecidableEq κ] : List (κ × α) → κ → List (κ × α)
  | [], _ => []
  | (k', v') :: rest, k =>
    if k' = k then ddel rest k else (k', v') :: ddel rest k

/-- JavaScript truthiness of a `number | undefined` value:
`undefined` and `0` are falsy, every other number is truthy. -/
def jsTruthyOptNat : Option Nat → Bool
  | none => false
  | some n => n != 0

/-- Callback identity.  Callbacks are opaque to the core (only compared
by reference and invoked), so they are modelled by their identity. -/
abbrev Callback := Nat

/-- Value of the shared pending-callback table
(`CallbackMetadata` in the source): `keys = none` is the `null`
"all keys" sentinel, `throttledUntil = none` is `undefined`
(immediate). -/
structure CallbackMetadata where
  keys : Option (List String)
  throttledUntil : Option Nat
  bypassBlock : Bool
deriving Repr, DecidableEq

/-- The shared pending-callback table `StoreBase._pendingCallbacks`,
a `Map` from callback to metadata kept in insertion order. -/
abbrev CallbackMap := List (Callback × CallbackMetadata)

/-- The reserved all-keys sentinel subscription key
(`StoreBase.Key_All`). -/
def Key_All : String := "%!$all"

/-- The lodash `uniq` recursion: keep the first occurrence of each key,
drop later duplicates (`seen` accumulates keys already emitted). -/
def uniqAux : List String → List String → List String
  | _, [] => []
  | seen, k :: ks =>
    if k ∈ seen then uniqAux seen ks else k :: uniqAux (k :: seen) ks

/-- lodash `uniq`: first-occurrence deduplication of a key list, as used
by `_resolveCallbacks` on each delivered entry's key list. -/
def uniq (ks : List String) : List String := uniqAux [] ks

/-- Source `StoreBase._updateExistingMeta` (lines 150-166), acting on an
entry known to exist: take the min of the two throttle times when both
are truthy, clear the throttle time when the new one is falsy, and OR
the bypass flag. -/
def updateExistingMeta (meta : CallbackMetadata) (throttledUntil : Option Nat)
    (bypassBlock : Bool) : CallbackMetadata :=
  let meta :=
    if jsTruthyOptNat throttledUntil && jsTruthyOptNat meta.throttledUntil then
      { meta with
        throttledUntil :=
          some (Nat.min (meta.throttledUntil.getD 0) (throttledUntil.getD 0)) }
    else meta
  let meta :=
    if !jsTruthyOptNat throttledUntil then { meta with throttledUntil := none }
    else meta
  if bypassBlock then { meta with bypassBlock := true } else meta

/-- Source `StoreBase._setupAllKeySubscription` (lines 168-180): replace
the callback's entry with a fresh all-keys (`keys = none`) entry, taking
the min throttle time only when both the new and the existing throttle
times are truthy, and inheriting a previously set bypass flag. -/
def setupAllKeySubscription (pending : CallbackMap) (callback : Callback)
    (throttledUntil : Option Nat) (bypassBlock : Bool) : CallbackMap :=
  let existingMeta := dget pending callback
  let newMeta : CallbackMetadata :=
    { keys := none, throttledUntil := throttledUntil, bypassBlock := bypassBlock }
  let newMeta :=
    match existingMeta with
    | some em =>
      if jsTruthyOptNat throttledUntil && jsTruthyOptNat em.throttledUntil then
        { newMeta with
          throttledUntil :=
            some (Nat.min (throttledUntil.getD 0) (em.throttledUntil.getD 0)) }
      else newMeta
    | none => newMeta
  let newMeta :=
    match existingMeta with
    | some em => if em.bypassBlock then { newMeta with bypassBlock := true } else newMeta
    | none => newMeta
  dset pending callback newMeta

/-- Source `StoreBase._setupSpecificKeySubscription` (lines 182-199):
insert a fresh entry (cloning the key list) when absent; otherwise run
`_updateExistingMeta` and then append the new keys, unless the entry is
already an all-keys (`keys = none`) entry, which is left as is. -/
def setupSpecificKeySubscription (pending : CallbackMap) (keys : List String)
    (callback : Callback) (throttledUntil : Option Nat) (bypassBlock : Bool) :
    CallbackMap :=
  match dget pending callback with
  | none =>
    dset pending callback
      { keys := some keys, throttledUntil := throttledUntil, bypassBlock := bypassBlock }
  | some existingMeta =>
    let meta := updateExistingMeta existingMeta throttledUntil bypassBlock
    let meta :=
      match meta.keys with
      | none => meta
      | some ks => { meta with keys := some (ks ++ keys) }
    dset pending callback meta

/-- Process-wide shared state of `StoreBase`: the static fields
`_pendingCallbacks`, `_triggerBlockCount`, `_bypassThrottle`,
`_isTriggering` and `_triggerPending`.  The block counter is an `Int`
because `popTriggerBlock` decrements before asserting non-negativity. -/
structure SharedState where
  pendingCallbacks : CallbackMap
  triggerBlockCount : Int
  bypassThrottle : Bool
  isTriggering : Bool
  triggerPending : Bool
deriving Repr, DecidableEq

/-- The block gate of `_resolveCallbacks` (line 224): an entry is
skipped when the global block counter is positive and the entry does not
bypass blocks. -/
def blockSkips (triggerBlockCount : Int) (meta : CallbackMetadata) : Bool :=
  decide (0 < triggerBlockCount) && !meta.bypassBlock

/-- The throttle gate of `_resolveCallbacks` (line 229): an entry is
skipped when its (truthy) throttle time lies strictly in the future and
the global throttle-bypass flag is off. -/
def throttleSkips (bypassThrottle : Bool) (currentTime : Nat)
    (meta : CallbackMetadata) : Bool :=
  jsTruthyOptNat meta.throttledUntil
    && decide (currentTime < meta.throttledUntil.getD 0)
    && !bypassThrottle

/-- A single delivery as observed by a callback: the callback identity
and its argument (`none` models the no-argument all-keys invocation). -/
abbrev Invocation := Callback × Option (List String)

/-- The single table walk of `_resolveCallbacks` (lines 221-237): each
entry either fails a gate and stays in the table, or is collected (with
its key list deduplicated, `null` converted to no-argument) and removed
from the table.  Returns the collected invocation list in table order
and the remaining table. -/
def resolvePass (triggerBlockCount : Int) (bypassThrottle : Bool)
    (currentTime : Nat) : CallbackMap → List Invocation × CallbackMap
  | [] => ([], [])
  | (cb, meta) :: rest =>
    let (delivered, remaining) :=
      resolvePass triggerBlockCount bypassThrottle currentTime rest
    if blockSkips triggerBlockCount meta then
      (delivered, (cb, meta) :: remaining)
    else if throttleSkips bypassThrottle currentTime meta then
      (delivered, (cb, meta) :: remaining)
    else
      ((cb, meta.keys.map uniq) :: delivered, remaining)

/-- One non-reentrant body of `_resolveCallbacks` (lines 213-245): set
the reentrancy flag, clear the pending-request flag, walk the table once
and invoke the collected callbacks.  `req` records whether some callback
re-entered `_resolveCallbacks` during the invocation phase (such a call
finds `_isTriggering` set and only sets `_triggerPending`). -/
def doPass (currentTime : Nat) (req : Bool) (s : SharedState) :
    SharedState × List Invocation :=
  let s1 : SharedState := { s with isTriggering := true, triggerPending := false }
  let dr :=
    resolvePass s1.triggerBlockCount s1.bypassThrottle currentTime s1.pendingCallbacks
  ({ s1 with
      pendingCallbacks := dr.2
      triggerPending := req
      isTriggering := false }, dr.1)

/-- The pass/recurse loop of `_resolveCallbacks` (lines 213-249).  The
list `reqs` supplies, for each pass, whether a reentrant resolution
request arrives during that pass (when the list is exhausted no more
requests arrive).  After each pass, if `_triggerPending` was set, the
function recurses once (line 248).  Returns the final state, the number
of passes run, and all invocations in order. -/
def runPasses (currentTime : Nat) :
    List Bool → SharedState → SharedState × Nat × List Invocation
  | [], s =>
    let p := doPass currentTime false s
    (p.1, 1, p.2)
  | r :: rs, s =>
    let p := doPass currentTime r s
    if p.1.triggerPending then
      let q := runPasses currentTime rs p.1
      (q.1, q.2.1 + 1, p.2 ++ q.2.2)
    else
      (p.1, 1, p.2)

/-- Source `StoreBase._resolveCallbacks` (lines 206-250): when a pass is
already executing, record a pending request and return; otherwise run
passes until no request is pending. -/
def resolveCallbacks (currentTime : Nat) (reqs : List Bool) (s : SharedState) :
    SharedState × Nat × List Invocation :=
  if s.isTriggering then ({ s with triggerPending := true }, 0, [])
  else runPasses currentTime reqs s

/-- Assertion failures of the core (`simple-assert-ok` calls). -/
inductive AssertError
  | invalidKey
  | unknownToken
  | noSubscriptionsUnderKey
  | subscriptionNotFound
  | imbalancedBlockStack
  | noSuchStore
deriving Repr, DecidableEq

/-- Source `StoreBase.pushTriggerBlock` (lines 62-64): increment the
shared block counter. -/
def pushTriggerBlock (s : SharedState) : SharedState :=
  { s with triggerBlockCount := s.triggerBlockCount + 1 }

/-- Source `StoreBase.popTriggerBlock` (lines 66-73): decrement the
shared block counter, assert it did not go negative, and run a resolver
pass when it reaches zero.  Top-level calls pass no reentrant request
oracle (`reqs = []`). -/
def popTriggerBlock (s : SharedState) (currentTime : Nat) :
    Except AssertError (SharedState × List Invocation) :=
  let c := s.triggerBlockCount - 1
  if c < 0 then .error .imbalancedBlockStack
  else
    let s := { s with triggerBlockCount := c }
    if c = 0 then
      let p := resolveCallbacks currentTime [] s
      .ok (p.1, p.2.2)
    else
      .ok (s, [])

/-- Source `StoreBase.setThrottleStatus` (lines 75-79): set the global
throttle-bypass flag to the negation of `enabled` and resolve. -/
def setThrottleStatus (enabled : Bool) (s : SharedState) (currentTime : Nat) :
    SharedState × List Invocation :=
  let s := { s with bypassThrottle := !enabled }
  let p := resolveCallbacks currentTime [] s
  (p.1, p.2.2)

/-- An auto-subscription record (`AutoSubscription` in the source).
Records are compared by object identity in the source (lodash `pull`);
`id` models that identity — distinct record objects carry distinct ids.
The `used` flag and the owning-store back-reference are carried but
never read by the core. -/
structure AutoSubscription where
  id : Nat
  store : Nat
  callback : Callback
  key : String
  used : Bool
deriving Repr, DecidableEq

/-- The per-store coalescing-timer record `_throttleData`.  The source
stores the handle returned by `Options.setTimeout(handler, delayArg)`;
the model records the delay argument that was passed (which, per
line 102, is the raw `this._throttleMs`, not the effective delay) and
the recorded `callbackTime`. -/
structure ThrottleData where
  timerDelayArg : Option Nat
  callbackTime : Nat
deriving Repr, DecidableEq

/-- Per-store instance state of `StoreBase`: the explicit-subscription
registry, the auto-subscription registry, the token counter and token
table, the construction-time throttle override and block-bypass flag,
and the outstanding coalescing timer. -/
structure StoreState where
  subscriptions : List (String × List Callback)
  autoSubscriptions : List (String × List AutoSubscription)
  subTokenNum : Nat
  subsByNum : List (Nat × String × Callback)
  throttleMs : Option Nat
  bypassTriggerBlocks : Bool
  throttleData : Option ThrottleData
deriving Repr, DecidableEq

/-- A freshly constructed store (`new StoreBase(throttleMs, bypass)`):
empty registries, token counter starting at 1, no timer. -/
def StoreState.mk0 (throttleMs : Option Nat) (bypassTriggerBlocks : Bool) :
    StoreState :=
  { subscriptions := []
    autoSubscriptions := []
    subTokenNum := 1
    subsByNum := []
    throttleMs := throttleMs
    bypassTriggerBlocks := bypassTriggerBlocks
    throttleData := none }

/-- Key-tracking hook events emitted by the registry operations
(the `_startedTrackingKey` / `_stoppedTrackingKey` extension points). -/
inductive HookEvent
  | started : String → HookEvent
  | stopped : String → HookEvent
deriving Repr, DecidableEq

/-- A raw subscription key as passed to the API: `string | number`. -/
abbrev RawKey := Sum String Nat

/-- Key normalization (`typeof key === 'number' ? key.toString() : key`). -/
def normalizeKey : RawKey → String
  | .inl s => s
  | .inr n => toString n

/-- Source `StoreBase.subscribe` (lines 255-275): normalize the key,
assert it is a nonempty string, append the callback to the key's list
(creating it if absent, firing the started-tracking hook when neither
registry knew the key), and hand out a fresh token. -/
def subscribe (st : StoreState) (callback : Callback) (rawKey : RawKey) :
    Except AssertError (StoreState × Nat × List HookEvent) :=
  let key := normalizeKey rawKey
  if key = "" then .error .invalidKey
  else
    let r :=
      match dget st.subscriptions key with
      | none =>
        ({ st with subscriptions := dset st.subscriptions key [callback] },
         if key ≠ Key_All ∧ (dget st.autoSubscriptions key) = none then
           [HookEvent.started key]
         else [])
      | some callbacks =>
        ({ st with subscriptions := dset st.subscriptions key (callbacks ++ [callback]) },
         ([] : List HookEvent))
    let token := r.1.subTokenNum
    .ok ({ r.1 with
            subTokenNum := token + 1
            subsByNum := dset r.1.subsByNum token (key, callback) },
         token, r.2)

/-- Source `StoreBase.unsubscribe` (lines 278-305): assert the token is
live, drop it, purge the callback's entry from the shared pending table,
remove the first occurrence of the callback from its key's list, and
when the list empties, delete the key and fire the stopped-tracking hook
if no auto-subscription covers the key. -/
def unsubscribe (st : StoreState) (sh : SharedState) (subToken : Nat) :
    Except AssertError (StoreState × SharedState × List HookEvent) :=
  match dget st.subsByNum subToken with
  | none => .error .unknownToken
  | some (key, callback) =>
    let st := { st with subsByNum := ddel st.subsByNum subToken }
    let sh := { sh with pendingCallbacks := ddel sh.pendingCallbacks callback }
    match dget st.subscriptions key with
    | none => .error .noSubscriptionsUnderKey
    | some callbacks =>
      if callback ∈ callbacks then
        let callbacks' := callbacks.erase callback
        if callbacks' = [] then
          let st := { st with subscriptions := ddel st.subscriptions key }
          .ok (st, sh,
            if key ≠ Key_All ∧ (dget st.autoSubscriptions key) = none then
              [HookEvent.stopped key]
            else [])
        else
          .ok ({ st with subscriptions := dset st.subscriptions key callbacks' },
               sh, [])
      else .error .subscriptionNotFound

/-- Source `StoreBase.trackAutoSubscription` (lines 307-319): append the
record to its key's auto-subscription list, creating the list (and
firing the started-tracking hook when no explicit subscription knows the
key) if absent. -/
def trackAutoSubscription (st : StoreState) (sub : AutoSubscription) :
    StoreState × List HookEvent :=
  let key := sub.key
  match dget st.autoSubscriptions key with
  | none =>
    ({ st with autoSubscriptions := dset st.autoSubscriptions key [sub] },
     if key ≠ Key_All ∧ (dget st.subscriptions key) = none then
       [HookEvent.started key]
     else [])
  | some callbacks =>
    ({ st with autoSubscriptions := dset st.autoSubscriptions key (callbacks ++ [sub]) },
     [])

/-- Source `StoreBase.removeAutoSubscription` (lines 321-342): lodash
`pull` removes every list element identical to the record; the source
then asserts exactly one element was removed, purges the callback's
pending entry, and on an emptied list deletes the key and fires the
stopped-tracking hook if no explicit subscription covers the key. -/
def removeAutoSubscription (st : StoreState) (sh : SharedState)
    (sub : AutoSubscription) :
    Except AssertError (StoreState × SharedState × List HookEvent) :=
  let key := sub.key
  match dget st.autoSubscriptions key with
  | none => .error .noSubscriptionsUnderKey
  | some subs =>
    let subs' := subs.filter (fun s => s ≠ sub)
    if subs'.length + 1 = subs.length then
      let sh := { sh with pendingCallbacks := ddel sh.pendingCallbacks sub.callback }
      if subs' = [] then
        let st := { st with autoSubscriptions := ddel st.autoSubscriptions key }
        .ok (st, sh,
          if key ≠ Key_All ∧ (dget st.subscriptions key) = none then
            [HookEvent.stopped key]
          else [])
      else
        .ok ({ st with autoSubscriptions := dset st.autoSubscriptions key subs' },
             sh, [])
    else .error .subscriptionNotFound

/-- The argument of `trigger`: `string | number | (string|number)[]`,
wrapped in `Option` for the omitted-argument case. -/
inductive TriggerArg
  | single : RawKey → TriggerArg
  | list : List RawKey → TriggerArg
deriving Repr, DecidableEq

/-- The branch condition of `trigger` (line 112):
`!keyOrKeys && typeof keyOrKeys !== 'number'`.  `undefined` is falsy and
not a number; the empty string is falsy and not a number; `0` is falsy
but a number; arrays are always truthy. -/
def triggerTakesAllBranch : Option TriggerArg → Bool
  | none => true
  | some (.single (.inl s)) => s == ""
  | some (.single (.inr _)) => false
  | some (.list _) => false

/-- The effective coalescing delay of `trigger` (lines 87-93): the
store's construction-time override when defined, else the process-wide
`Options.defaultThrottleMs`. -/
def effectiveThrottleMs (storeThrottleMs defaultThrottleMs : Option Nat) :
    Option Nat :=
  match storeThrottleMs with
  | some v => some v
  | none => defaultThrottleMs

/-- The throttle setup of `trigger` (lines 95-107): when the effective
delay is truthy and no timer is running, start one — the source passes
the raw `this._throttleMs` to `Options.setTimeout` (line 102) while
recording `callbackTime = Date.now() + throttleMs` with the effective
delay (line 103) — and in all throttled cases report the recorded
`callbackTime` as this call's `throttledUntil`. -/
def triggerThrottleSetup (defaultThrottleMs : Option Nat) (currentTime : Nat)
    (st : StoreState) : StoreState × Option Nat :=
  let throttleMs := effectiveThrottleMs st.throttleMs defaultThrottleMs
  if jsTruthyOptNat throttleMs then
    let st :=
      match st.throttleData with
      | none =>
        { st with
            throttleData :=
              some { timerDelayArg := st.throttleMs
                     callbackTime := currentTime + throttleMs.getD 0 } }
      | some _ => st
    (st, st.throttleData.map (·.callbackTime))
  else (st, none)

/-- The raw key list carried by a trigger argument (empty when the
argument is absent; that case is routed to the all-keys branch). -/
def triggerArgKeys : Option TriggerArg → List RawKey
  | none => []
  | some (.single k) => [k]
  | some (.list ks) => ks

/-- Source `StoreBase.trigger` (lines 86-148): resolve the throttle
setup, then either register every subscriber with an all-keys entry, or
register per-key subscribers with single-key entries and all-key-sentinel
subscribers with the whole key list; finally resolve immediately when
unthrottled or block-bypassing.  Returns the updated store, the updated
shared state and the invocations performed. -/
def trigger (defaultThrottleMs : Option Nat) (currentTime : Nat)
    (st0 : StoreState) (sh : SharedState) (keyOrKeys : Option TriggerArg) :
    StoreState × SharedState × List Invocation :=
  let ts := triggerThrottleSetup defaultThrottleMs currentTime st0
  let st := ts.1
  let throttledUntil := ts.2
  let bypassBlock := st.bypassTriggerBlocks
  let sh :=
    if triggerTakesAllBranch keyOrKeys then
      let allSubs := (st.subscriptions.map (·.2)).flatten
      let pc := allSubs.foldl
        (fun pc cb => setupAllKeySubscription pc cb throttledUntil bypassBlock)
        sh.pendingCallbacks
      let pc := ((st.autoSubscriptions.map (·.2)).flatten).foldl
        (fun pc sub => setupAllKeySubscription pc sub.callback throttledUntil bypassBlock)
        pc
      { sh with pendingCallbacks := pc }
    else
      let keys := (triggerArgKeys keyOrKeys).map normalizeKey
      let pc := keys.foldl
        (fun pc key =>
          let pc := ((dget st.subscriptions key).getD []).foldl
            (fun pc cb => setupSpecificKeySubscription pc [key] cb throttledUntil bypassBlock)
            pc
          ((dget st.autoSubscriptions key).getD []).foldl
            (fun pc sub =>
              setupSpecificKeySubscription pc [key] sub.callback throttledUntil bypassBlock)
            pc)
        sh.pendingCallbacks
      let pc := ((dget st.subscriptions Key_All).getD []).foldl
        (fun pc cb => setupSpecificKeySubscription pc keys cb throttledUntil bypassBlock)
        pc
      let pc := ((dget st.autoSubscriptions Key_All).getD []).foldl
        (fun pc sub =>
          setupSpecificKeySubscription pc keys sub.callback throttledUntil bypassBlock)
        pc
      { sh with pendingCallbacks := pc }
  if !jsTruthyOptNat throttledUntil || bypassBlock then
    let p := resolveCallbacks currentTime [] sh
    (st, p.1, p.2.2)
  else
    (st, sh, [])

/-- The timer handler `_handleThrottledCallbacks` (lines 201-204): clear
the store's timer record and resolve. -/
def handleThrottledCallbacks (currentTime : Nat) (st : StoreState)
    (sh : SharedState) : StoreState × SharedState × List Invocation :=
  let st := { st with throttleData := none }
  let p := resolveCallbacks currentTime [] sh
  (st, p.1, p.2.2)

/-- A whole-process configuration: any number of store instances
(indexed by store id), the shared static state, and the configuration
provider's `Options.defaultThrottleMs`. -/
structure World where
  stores : List (Nat × StoreState)
  shared : SharedState
  defaultThrottleMs : Option Nat
deriving Repr, DecidableEq

/-- Externally observable events of a run: a callback invocation (with
its argument) or a key-tracking hook firing on a given store. -/
inductive Event
  | invoked : Callback → Option (List String) → Event
  | started : Nat → String → Event
  | stopped : Nat → String → Event
deriving Repr, DecidableEq

/-- Top-level operations of the public surface.  Time-consuming
operations carry the wall-clock value `Date.now()` would observe. -/
inductive Op
  | subscribeOp (sid : Nat) (cb : Callback) (rawKey : RawKey)
  | unsubscribeOp (sid : Nat) (token : Nat)
  | triggerOp (sid : Nat) (currentTime : Nat) (arg : Option TriggerArg)
  | trackAutoOp (sid : Nat) (sub : AutoSubscription)
  | removeAutoOp (sid : Nat) (sub : AutoSubscription)
  | timerFireOp (sid : Nat) (currentTime : Nat)
  | pushBlockOp
  | popBlockOp (currentTime : Nat)
  | setThrottleOp (enabled : Bool) (currentTime : Nat)
deriving Repr, DecidableEq

/-- Attach a store id to registry hook events. -/
def tagHook (sid : Nat) : HookEvent → Event
  | .started k => .started sid k
  | .stopped k => .stopped sid k

/-- Interpret one top-level operation on the world, producing the
observable events it emits.  A failing assertion aborts the operation. -/
def step (w : World) (op : Op) : Except AssertError (World × List Event) :=
  match op with
  | .subscribeOp sid cb rawKey =>
    match dget w.stores sid with
    | none => .error .noSuchStore
    | some st =>
      match subscribe st cb rawKey with
      | .error e => .error e
      | .ok (st', _, hooks) =>
        .ok ({ w with stores := dset w.stores sid st' }, hooks.map (tagHook sid))
  | .unsubscribeOp sid token =>
    match dget w.stores sid with
    | none => .error .noSuchStore
    | some st =>
      match unsubscribe st w.shared token with
      | .error e => .error e
      | .ok (st', sh', hooks) =>
        .ok ({ w with stores := dset w.stores sid st', shared := sh' },
             hooks.map (tagHook sid))
  | .triggerOp sid currentTime arg =>
    match dget w.stores sid with
    | none => .error .noSuchStore
    | some st =>
      let p := trigger w.defaultThrottleMs currentTime st w.shared arg
      .ok ({ w with stores := dset w.stores sid p.1, shared := p.2.1 },
           p.2.2.map (fun d => Event.invoked d.1 d.2))
  | .trackAutoOp sid sub =>
    match dget w.stores sid with
    | none => .error .noSuchStore
    | some st =>
      let p := trackAutoSubscription st sub
      .ok ({ w with stores := dset w.stores sid p.1 }, p.2.map (tagHook sid))
  | .removeAutoOp sid sub =>
    match dget w.stores sid with
    | none => .error .noSuchStore
    | some st =>
      match removeAutoSubscription st w.shared sub with
      | .error e => .error e
      | .ok (st', sh', hooks) =>
        .ok ({ w with stores := dset w.stores sid st', shared := sh' },
             hooks.map (tagHook sid))
  | .timerFireOp sid currentTime =>
    match dget w.stores sid with
    | none => .error .noSuchStore
    | some st =>
      let p := handleThrottledCallbacks currentTime st w.shared
      .ok ({ w with stores := dset w.stores sid p.1, shared := p.2.1 },
           p.2.2.map (fun d => Event.invoked d.1 d.2))
  | .pushBlockOp =>
    .ok ({ w with shared := pushTriggerBlock w.shared }, [])
  | .popBlockOp currentTime =>
    match popTriggerBlock w.shared currentTime with
    | .error e => .error e
    | .ok p =>
      .ok ({ w with shared := p.1 }, p.2.map (fun d => Event.invoked d.1 d.2))
  | .setThrottleOp enabled currentTime =>
    let p := setThrottleStatus enabled w.shared currentTime
    .ok ({ w with shared := p.1 }, p.2.map (fun d => Event.invoked d.1 d.2))

/-- Run a sequence of top-level operations, collecting all events.  A
failing assertion is fatal: the run stops there. -/
def run (w : World) : List Op → World × List Event
  | [] => (w, [])
  | op :: ops =>
    match step w op with
    | .error _ => (w, [])
    | .ok p =>
      let q := run p.1 ops
      (q.1, p.2 ++ q.2)

/-- Whether a top-level operation is a `trigger` call (the only
operation that inserts entries into the shared pending table). -/
def Op.isTrigger : Op → Bool
  | .triggerOp _ _ _ => true
  | _ => false

/-- An entry passes both resolver gates. -/
def deliverable (triggerBlockCount : Int) (bypassThrottle : Bool)
    (currentTime : Nat) (meta : CallbackMetadata) : Bool :=
  !blockSkips triggerBlockCount meta && !throttleSkips bypassThrottle currentTime meta

/-- Combined number of subscribers (explicit plus auto) a store has for
a key. -/
def combinedCount (st : StoreState) (key : String) : Nat :=
  ((dget st.subscriptions key).getD []).length
    + ((dget st.autoSubscriptions key).getD []).length

/-- Registry invariant maintained by the four registry operations: a key
present in either registry dictionary has a nonempty list (the source
deletes a key as soon as its list empties). -/
def RegistryInv (st : StoreState) : Prop :=
  (∀ p ∈ st.subscriptions, p.2 ≠ []) ∧ (∀ p ∈ st.autoSubscriptions, p.2 ≠ [])

/-! ### Example states used by closed witness and counterexample theorems -/

/-- Shared state with empty pending table and nothing active. -/
def sharedInit : SharedState :=
  { pendingCallbacks := []
    triggerBlockCount := 0
    bypassThrottle := false
    isTriggering := false
    triggerPending := false }

/-- A store with callback `7` explicitly subscribed to key `"x"`. -/
def storeX : StoreState :=
  { StoreState.mk0 none false with
      subscriptions := [("x", [7])]
      subTokenNum := 2
      subsByNum := [(1, ("x", 7))] }

/-- A store with callback `5` explicitly subscribed to keys `"a"` (token
1) and `"b"` (token 2). -/
def storeAB : StoreState :=
  { StoreState.mk0 none false with
      subscriptions := [("a", [5]), ("b", [5])]
      subTokenNum := 3
      subsByNum := [(1, ("a", 5)), (2, ("b", 5))] }

/-- A pending table holding one immediate specific-key entry for
callback `0`. -/
def pcImmediate : CallbackMap :=
  [(0, { keys := some ["a"], throttledUntil := none, bypassBlock := false })]

/-- A pending table with one deliverable entry (duplicate keys) and one
throttled entry. -/
def pcTwo : CallbackMap :=
  [(1, { keys := some ["a", "a"], throttledUntil := none, bypassBlock := false }),
   (2, { keys := none, throttledUntil := some 10, bypassBlock := false })]

/-- Shared state mid-pass (`_isTriggering` set). -/
def sharedTriggering : SharedState :=
  { sharedInit with isTriggering := true }

/-- Shared state with block depth 1 and the table `pcTwo` accumulated. -/
def sharedBlocked1 : SharedState :=
  { sharedInit with triggerBlockCount := 1, pendingCallbacks := pcTwo }

/-- Shared state with block depth 2. -/
def sharedBlocked2 : SharedState :=
  { sharedInit with triggerBlockCount := 2 }

/-- An all-keys metadata value used in merge examples. -/
def metaAllThrottled : CallbackMetadata :=
  { keys := none, throttledUntil := some 40, bypassBlock := false }

/-- An auto-subscription record of callback `6` on key `"y"`. -/
def autoY : AutoSubscription :=
  { id := 11, store := 0, callback := 6, key := "y", used := false }

/-- A store tracking only the auto-subscription `autoY`. -/
def storeAutoY : StoreState :=
  { StoreState.mk0 none false with autoSubscriptions := [("y", [autoY])] }

/-- Shared state whose pending table has an entry for callback `5`. -/
def sharedPend5 : SharedState :=
  { sharedInit with pendingCallbacks := [(5, metaAllThrottled)] }

/-- Shared state whose pending table has an entry for callback `6`. -/
def sharedPend6 : SharedState :=
  { sharedInit with pendingCallbacks := [(6, metaAllThrottled)] }

/-- The store `storeAB` after `unsubscribe` of token 1. -/
def storeB : StoreState :=
  { StoreState.mk0 none false with
      subscriptions := [("b", [5])]
      subTokenNum := 3
      subsByNum := [(2, ("b", 5))] }

/-- The store `storeX` after subscribing callback `8` to key `"x"`. -/
def storeX2 : StoreState :=
  { StoreState.mk0 none false with
      subscriptions := [("x", [7, 8])]
      subTokenNum := 3
      subsByNum := [(1, ("x", 7)), (2, ("x", 8))] }

/-- The store `storeX` after tracking the auto-subscription `autoY`. -/
def storeXY : StoreState :=
  { StoreState.mk0 none false with
      subscriptions := [("x", [7])]
      autoSubscriptions := [("y", [autoY])]
      subTokenNum := 2
      subsByNum := [(1, ("x", 7))] }

/-! ### Dictionary lemmas -/

theorem dget_mem {κ α : Type} [DecidableEq κ] {d : List (κ × α)} {k : κ} {v : α}
    (h : dget d k = some v) : (k, v) ∈ d := by
  induction d with
  | nil => simp [dget] at h
  | cons p rest ih =>
    obtain ⟨k', v'⟩ := p
    by_cases hk : k' = k
    · subst hk
      simp [dget] at h
      subst h
      exact List.mem_cons_self _ _
    · simp [dget, hk] at h
      exact List.mem_cons_of_mem _ (ih h)

theorem dget_eq_none {κ α : Type} [DecidableEq κ] {d : List (κ × α)} {k : κ} :
    dget d k = none ↔ k ∉ d.map Prod.fst := by
  induction d with
  | nil => simp [dget]
  | cons p rest ih =>
    obtain ⟨k', v'⟩ := p
    by_cases hk : k' = k
    · subst hk; simp [dget]
    · have hk2 : ¬ k = k' := fun hh => hk hh.symm
      simp [dget, hk, ih, hk2]

theorem dget_dset_self {κ α : Type} [DecidableEq κ] (d : List (κ × α)) (k : κ) (v : α) :
    dget (dset d k v) k = some v := by
  induction d with
  | nil => simp [dget, dset]
  | cons p rest ih =>
    obtain ⟨k', v'⟩ := p
    by_cases h : k' = k
    · simp [dset, h, dget]
    · simp [dset, h, dget, ih]

theorem dget_dset_ne {κ α : Type} [DecidableEq κ] (d : List (κ × α)) {k k₂ : κ} (v : α)
    (h : k₂ ≠ k) : dget (dset d k v) k₂ = dget d k₂ := by
  have h2 : ¬ k = k₂ := fun hh => h hh.symm
  induction d with
  | nil => simp [dget, dset, h2]
  | cons p rest ih =>
    obtain ⟨k', v'⟩ := p
    by_cases hk : k' = k
    · subst hk
      simp [dset, dget, h2]
    · by_cases hk2 : k' = k₂
      · subst hk2
        simp [dset, hk, dget]
      · simp [dset, hk, dget, hk2, ih]

theorem dget_ddel_self {κ α : Type} [DecidableEq κ] (d : List (κ × α)) (k : κ) :
    dget (ddel d k) k = none := by
  induction d with
  | nil => simp [dget, ddel]
  | cons p rest ih =>
    obtain ⟨k', v'⟩ := p
    by_cases h : k' = k
    · simp [ddel, h, ih]
    · simp [ddel, h, dget, ih]

theorem dget_ddel_ne {κ α : Type} [DecidableEq κ] (d : List (κ × α)) {k k₂ : κ}
    (h : k₂ ≠ k) : dget (ddel d k) k₂ = dget d k₂ := by
  have h2 : ¬ k = k₂ := fun hh => h hh.symm
  induction d with
  | nil => simp [ddel]
  | cons p rest ih =>
    obtain ⟨k', v'⟩ := p
    by_cases hk : k' = k
    · subst hk
      simp [ddel, dget, h2, ih]
    · simp [ddel, hk, dget, ih]

theorem mem_dset {κ α : Type} [DecidableEq κ] {d : List (κ × α)} {k : κ} {v : α}
    {p : κ × α} (h : p ∈ dset d k v) : p = (k, v) ∨ p ∈ d := by
  induction d with
  | nil =>
    simp [dset] at h
    exact Or.inl h
  | cons q rest ih =>
    obtain ⟨k', v'⟩ := q
    by_cases hk : k' = k
    · simp [dset, hk] at h
      rcases h with h | h
      · exact Or.inl h
      · exact Or.inr (List.mem_cons_of_mem _ h)
    · simp [dset, hk] at h
      rcases h with h | h
      · exact Or.inr (by simp [h])
      · rcases ih h with h | h
        · exact Or.inl h
        · exact Or.inr (List.mem_cons_of_mem _ h)

theorem mem_ddel {κ α : Type} [DecidableEq κ] {d : List (κ × α)} {k : κ}
    {p : κ × α} (h : p ∈ ddel d k) : p ∈ d := by
  induction d with
  | nil => simp [ddel] at h
  | cons q rest ih =>
    obtain ⟨k', v'⟩ := q
    by_cases hk : k' = k
    · simp [ddel, hk] at h
      exact List.mem_cons_of_mem _ (ih h)
    · simp [ddel, hk] at h
      rcases h with h | h
      · simp [h]
      · exact List.mem_cons_of_mem _ (ih h)

/-! ### Deduplication lemmas -/

theorem uniqAux_nodup_and_fresh (ks : List String) :
    ∀ seen, (uniqAux seen ks).Nodup ∧ ∀ x ∈ uniqAux seen ks, x ∉ seen := by
  induction ks with
  | nil => intro seen; simp [uniqAux]
  | cons k ks ih =>
    intro seen
    by_cases h : k ∈ seen
    · simpa [uniqAux, h] using ih seen
    · obtain ⟨ihn, ihm⟩ := ih (k :: seen)
      refine ⟨?_, ?_⟩
      · simp only [uniqAux, h, if_false]
        exact List.nodup_cons.mpr ⟨fun hk => (ihm k hk) (by simp), ihn⟩
      · intro x hx
        simp only [uniqAux, h, if_false, List.mem_cons] at hx
        rcases hx with rfl | hx
        · exact h
        · exact fun hxs => (ihm x hx) (by simp [hxs])

theorem uniq_nodup (ks : List String) : (uniq ks).Nodup :=
  (uniqAux_nodup_and_fresh ks []).1

/-! ### Resolver-pass characterization -/

theorem resolvePass_eq (bc : Int) (bt : Bool) (now : Nat) (pc : CallbackMap) :
    resolvePass bc bt now pc =
      ((pc.filter (fun e => deliverable bc bt now e.2)).map
          (fun e => (e.1, e.2.keys.map uniq)),
       pc.filter (fun e => !deliverable bc bt now e.2)) := by
  induction pc with
  | nil => rfl
  | cons e rest ih =>
    obtain ⟨cb, meta⟩ := e
    by_cases hb : blockSkips bc meta
    · simp [resolvePass, ih, deliverable, hb, List.filter_cons]
    · by_cases ht : throttleSkips bt now meta
      · simp [resolvePass, ih, deliverable, hb, ht, List.filter_cons]
      · simp [resolvePass, ih, deliverable, hb, ht, List.filter_cons]

/-- C1: a single resolver pass delivers exactly the entries passing both
the block gate and the throttle gate — each delivered entry is removed
from the table and produces exactly one invocation, carrying its
deduplicated key list, or no argument when the key list is the all-keys
sentinel — and every gated entry stays in the table. -/
theorem claim_C1_resolver_pass (bc : Int) (bt : Bool) (now : Nat) (pc : CallbackMap)
    (hnd : (pc.map Prod.fst).Nodup) :
    (resolvePass bc bt now pc).1 =
        (pc.filter (fun e => deliverable bc bt now e.2)).map
          (fun e => (e.1, e.2.keys.map uniq))
    ∧ (resolvePass bc bt now pc).2 =
        pc.filter (fun e => !deliverable bc bt now e.2)
    ∧ (∀ cb, cb ∈ ((resolvePass bc bt now pc).1).map Prod.fst →
        (((resolvePass bc bt now pc).1).map Prod.fst).count cb = 1
        ∧ cb ∉ ((resolvePass bc bt now pc).2).map Prod.fst)
    ∧ (∀ cb ks, (cb, some ks) ∈ (resolvePass bc bt now pc).1 → ks.Nodup) := by
  have heq := resolvePass_eq bc bt now pc
  have h1 : (resolvePass bc bt now pc).1 =
      (pc.filter (fun e => deliverable bc bt now e.2)).map
        (fun e => (e.1, e.2.keys.map uniq)) := by rw [heq]
  have h2 : (resolvePass bc bt now pc).2 =
      pc.filter (fun e => !deliverable bc bt now e.2) := by rw [heq]
  refine ⟨h1, h2, ?_, ?_⟩
  · intro cb hcb
    have hperm :
        ((pc.filter (fun e => deliverable bc bt now e.2)).map Prod.fst
            ++ (pc.filter (fun e => !deliverable bc bt now e.2)).map Prod.fst).Perm
          (pc.map Prod.fst) := by
      have := (List.filter_append_perm (fun e => deliverable bc bt now e.2) pc).map Prod.fst
      simpa using this
    have hndall :
        ((pc.filter (fun e => deliverable bc bt now e.2)).map Prod.fst
            ++ (pc.filter (fun e => !deliverable bc bt now e.2)).map Prod.fst).Nodup :=
      hperm.nodup_iff.mpr hnd
    have hsplit := List.nodup_append.mp hndall
    have hfst1 : ((resolvePass bc bt now pc).1).map Prod.fst =
        (pc.filter (fun e => deliverable bc bt now e.2)).map Prod.fst := by
      rw [h1, List.map_map]
      rfl
    rw [hfst1] at hcb ⊢
    rw [h2]
    refine ⟨List.count_eq_one_of_mem hsplit.1 hcb, ?_⟩
    intro hmem
    exact hsplit.2.2 hcb hmem
  · intro cb ks hmem
    rw [h1] at hmem
    obtain ⟨e, _, he⟩ := List.mem_map.mp hmem
    obtain ⟨heq1, heq2⟩ := Prod.mk.injEq _ _ _ _ ▸ he
    cases hke : e.2.keys with
    | none => rw [hke] at heq2; simp at heq2
    | some ks0 =>
      rw [hke] at heq2
      simp at heq2
      rw [← heq2]
      exact uniq_nodup ks0

/-- Witness for C1 at a concrete two-entry table. -/
theorem claim_C1_witness :
    (resolvePass 0 false 5 pcTwo).1 =
        (pcTwo.filter (fun e => deliverable 0 false 5 e.2)).map
          (fun e => (e.1, e.2.keys.map uniq))
    ∧ (resolvePass 0 false 5 pcTwo).2 =
        pcTwo.filter (fun e => !deliverable 0 false 5 e.2) :=
  ⟨(claim_C1_resolver_pass 0 false 5 pcTwo (by decide)).1,
   (claim_C1_resolver_pass 0 false 5 pcTwo (by decide)).2.1⟩

/-! ### Shared resolver: reentrancy -/

theorem doPass_triggerPending (now : Nat) (r : Bool) (s : SharedState) :
    (doPass now r s).1.triggerPending = r := rfl

theorem runPasses_passcount (now : Nat) :
    ∀ (reqs : List Bool) (s : SharedState),
      (runPasses now reqs s).2.1 = 1 + (reqs.takeWhile id).length := by
  intro reqs
  induction reqs with
  | nil => intro s; simp [runPasses]
  | cons r rs ih =>
    intro s
    simp only [runPasses, doPass_triggerPending]
    cases r with
    | true =>
      simp only [if_true, List.takeWhile_cons, id]
      rw [ih]
      simp [Nat.add_comm]
    | false =>
      simp [List.takeWhile_cons]

/-- C8: while the reentrancy flag is set, a resolution request only
records a pending request and changes nothing else (zero passes, no
invocations); otherwise the resolver runs one pass plus exactly one
extra pass per pass during which a request was recorded (the number of
passes is one more than the length of the initial all-`true` run of the
request oracle). -/
theorem claim_C8_reentrancy (now : Nat) (reqs : List Bool) (s : SharedState) :
    (s.isTriggering = true →
      resolveCallbacks now reqs s = ({ s with triggerPending := true }, 0, []))
    ∧ (s.isTriggering = false →
      (resolveCallbacks now reqs s).2.1 = 1 + (reqs.takeWhile id).length) := by
  constructor
  · intro h
    simp [resolveCallbacks, h]
  · intro h
    simp [resolveCallbacks, h, runPasses_passcount]

/-- Witness for C8: a request on a mid-pass state only records pending;
a request oracle `[true, false]` yields two passes. -/
theorem claim_C8_witness :
    resolveCallbacks 0 [true] sharedTriggering
        = ({ sharedTriggering with triggerPending := true }, 0, [])
    ∧ (resolveCallbacks 0 [true, false] sharedInit).2.1
        = 1 + (([true, false] : List Bool).takeWhile id).length :=
  ⟨(claim_C8_reentrancy 0 [true] sharedTriggering).1 rfl,
   (claim_C8_reentrancy 0 [true, false] sharedInit).2 rfl⟩

/-! ### Block stack -/

/-- C6: `pushTriggerBlock` increments the shared block counter;
`popTriggerBlock` at counter zero is the imbalanced-block-stack fatal
assertion; a pop from one to zero immediately runs a resolver pass
(block gate open, throttle rules still applied); a pop from above one
just decrements. -/
theorem claim_C6_block_stack (s : SharedState) (now : Nat) :
    (pushTriggerBlock s = { s with triggerBlockCount := s.triggerBlockCount + 1 })
    ∧ (s.triggerBlockCount = 0 →
        popTriggerBlock s now = .error .imbalancedBlockStack)
    ∧ (s.triggerBlockCount = 1 → s.isTriggering = false →
        popTriggerBlock s now =
          .ok ({ pendingCallbacks :=
                   (resolvePass 0 s.bypassThrottle now s.pendingCallbacks).2
                 triggerBlockCount := 0
                 bypassThrottle := s.bypassThrottle
                 isTriggering := false
                 triggerPending := false },
               (resolvePass 0 s.bypassThrottle now s.pendingCallbacks).1))
    ∧ (1 < s.triggerBlockCount →
        popTriggerBlock s now =
          .ok ({ s with triggerBlockCount := s.triggerBlockCount - 1 }, [])) := by
  refine ⟨rfl, ?_, ?_, ?_⟩
  · intro h
    norm_num [popTriggerBlock, h]
  · intro h hT
    simp [popTriggerBlock, h, resolveCallbacks, hT, runPasses, doPass]
  · intro h
    have h1 : ¬ (s.triggerBlockCount - 1 < 0) := by omega
    have h2 : ¬ (s.triggerBlockCount - 1 = 0) := by omega
    simp [popTriggerBlock, h1, h2]

/-- Witness for C6 at concrete shared states of block depth 0, 1, 2. -/
theorem claim_C6_witness :
    popTriggerBlock sharedInit 0 = .error .imbalancedBlockStack
    ∧ popTriggerBlock sharedBlocked1 3 =
        .ok ({ pendingCallbacks :=
                 (resolvePass 0 sharedBlocked1.bypassThrottle 3
                   sharedBlocked1.pendingCallbacks).2
               triggerBlockCount := 0
               bypassThrottle := sharedBlocked1.bypassThrottle
               isTriggering := false
               triggerPending := false },
             (resolvePass 0 sharedBlocked1.bypassThrottle 3
               sharedBlocked1.pendingCallbacks).1)
    ∧ popTriggerBlock sharedBlocked2 0 =
        .ok ({ sharedBlocked2 with
                triggerBlockCount := sharedBlocked2.triggerBlockCount - 1 }, []) :=
  ⟨(claim_C6_block_stack sharedInit 0).2.1 rfl,
   (claim_C6_block_stack sharedBlocked1 3).2.2.1 rfl rfl,
   (claim_C6_block_stack sharedBlocked2 0).2.2.2 (by norm_num [sharedBlocked2, sharedInit])⟩

/-! ### Pending-table merge -/

theorem updateExistingMeta_keys (em : CallbackMetadata) (t : Option Nat) (b : Bool) :
    (updateExistingMeta em t b).keys = em.keys := by
  unfold updateExistingMeta
  split_ifs <;> rfl

theorem updateExistingMeta_throttledUntil (em : CallbackMetadata) (t : Option Nat)
    (b : Bool) :
    (updateExistingMeta em t b).throttledUntil =
      if jsTruthyOptNat t && jsTruthyOptNat em.throttledUntil then
        some (Nat.min (em.throttledUntil.getD 0) (t.getD 0))
      else if !jsTruthyOptNat t then none
      else em.throttledUntil := by
  unfold updateExistingMeta
  split_ifs <;> simp_all

theorem updateExistingMeta_bypassBlock (em : CallbackMetadata) (t : Option Nat)
    (b : Bool) :
    (updateExistingMeta em t b).bypassBlock = (em.bypassBlock || b) := by
  unfold updateExistingMeta
  split_ifs <;> simp_all

theorem setupAllKeySubscription_existing (pc : CallbackMap) (cb : Callback)
    (t : Option Nat) (b : Bool) (em : CallbackMetadata)
    (hmem : dget pc cb = some em) :
    dget (setupAllKeySubscription pc cb t b) cb =
      some { keys := none
             throttledUntil :=
               if jsTruthyOptNat t && jsTruthyOptNat em.throttledUntil then
                 some (Nat.min (t.getD 0) (em.throttledUntil.getD 0))
               else t
             bypassBlock := if em.bypassBlock then true else b } := by
  simp only [setupAllKeySubscription, hmem]
  rw [dget_dset_self]
  split_ifs <;> rfl

/-- Counterexample for C2: an existing immediate (no due-time) entry
merged by a throttled all-keys trigger does NOT stay immediate — the
merged due-time is the new trigger's due-time. -/
theorem claim_C2_counterexample :
    (dget pcImmediate 0).map (fun m => m.throttledUntil) = some none
    ∧ (dget (setupAllKeySubscription pcImmediate 0 (some 100) false) 0).map
        (fun m => m.throttledUntil) = some (some 100)
    ∧ ¬ ((dget (setupAllKeySubscription pcImmediate 0 (some 100) false) 0).map
        (fun m => m.throttledUntil) = some none) := by
  refine ⟨rfl, rfl, by decide⟩

/-- C2 (amended): in both merges the due-time is the min of the two when
both exist and the bypass flag is OR-ed; a new immediate trigger always
clears the due-time; an existing immediate entry survives a specific-key
merge, but an all-keys merge with a due-time overwrites an existing
immediate entry with the new due-time. -/
theorem claim_C2_merge (em : CallbackMetadata) (t : Option Nat) (b : Bool)
    (pc : CallbackMap) (cb : Callback) :
    ((jsTruthyOptNat t = true → jsTruthyOptNat em.throttledUntil = true →
        (updateExistingMeta em t b).throttledUntil
          = some (Nat.min (em.throttledUntil.getD 0) (t.getD 0)))
      ∧ (t = none → (updateExistingMeta em t b).throttledUntil = none)
      ∧ (em.throttledUntil = none →
          (updateExistingMeta em t b).throttledUntil = none)
      ∧ (updateExistingMeta em t b).bypassBlock = (em.bypassBlock || b))
    ∧ (dget pc cb = some em →
      ((jsTruthyOptNat t = true → jsTruthyOptNat em.throttledUntil = true →
          (dget (setupAllKeySubscription pc cb t b) cb).map
              (fun m => m.throttledUntil)
            = some (some (Nat.min (t.getD 0) (em.throttledUntil.getD 0))))
        ∧ (t = none →
          (dget (setupAllKeySubscription pc cb t b) cb).map
              (fun m => m.throttledUntil) = some none)
        ∧ (em.throttledUntil = none →
          (dget (setupAllKeySubscription pc cb t b) cb).map
              (fun m => m.throttledUntil) = some t)
        ∧ (dget (setupAllKeySubscription pc cb t b) cb).map
              (fun m => m.bypassBlock) = some (b || em.bypassBlock))) := by
  constructor
  · refine ⟨?_, ?_, ?_, ?_⟩
    · intro ht hem
      rw [updateExistingMeta_throttledUntil]
      simp [ht, hem]
    · intro ht
      subst ht
      rw [updateExistingMeta_throttledUntil]
      simp [jsTruthyOptNat]
    · intro hem
      rw [updateExistingMeta_throttledUntil]
      simp [hem, jsTruthyOptNat]
    · exact updateExistingMeta_bypassBlock em t b
  · intro hmem
    rw [setupAllKeySubscription_existing pc cb t b em hmem]
    refine ⟨?_, ?_, ?_, ?_⟩
    · intro ht hem
      simp [ht, hem]
    · intro ht
      subst ht
      simp [jsTruthyOptNat]
    · intro hem
      simp [hem, jsTruthyOptNat]
    · cases hb : em.bypassBlock <;> simp [hb]

/-- Witness for C2 at concrete metadata values. -/
theorem claim_C2_witness :
    (updateExistingMeta metaAllThrottled (some 100) false).throttledUntil
        = some (Nat.min (metaAllThrottled.throttledUntil.getD 0) ((some 100 : Option Nat).getD 0))
    ∧ (updateExistingMeta { metaAllThrottled with throttledUntil := none } (some 100) false).throttledUntil = none
    ∧ (dget (setupAllKeySubscription [(4, metaAllThrottled)] 4 none true) 4).map
        (fun m => m.throttledUntil) = some none :=
  ⟨(claim_C2_merge metaAllThrottled (some 100) false [] 0).1.1 rfl rfl,
   (claim_C2_merge { metaAllThrottled with throttledUntil := none } (some 100) false [] 0).1.2.2.1 rfl,
   ((claim_C2_merge metaAllThrottled none true [(4, metaAllThrottled)] 4).2 rfl).2.1 rfl⟩

/-! ### Sticky all-keys entries -/

/-- C5: a pending all-keys entry is sticky — a later specific-key merge
leaves the key list at the all-keys sentinel — and such an entry, when
it passes the gates, is delivered as a no-argument invocation. -/
theorem claim_C5_sticky_all (pc : CallbackMap) (cb : Callback)
    (em : CallbackMetadata) (ks : List String) (t : Option Nat) (b : Bool)
    (bc : Int) (bt : Bool) (now : Nat)
    (hmem : dget pc cb = some em) (hall : em.keys = none) :
    (dget (setupSpecificKeySubscription pc ks cb t b) cb).map (fun m => m.keys)
      = some none
    ∧ (∀ meta, (cb, meta) ∈ pc → meta.keys = none →
        deliverable bc bt now meta = true →
        (cb, (none : Option (List String))) ∈ (resolvePass bc bt now pc).1) := by
  constructor
  · have hk : (updateExistingMeta em t b).keys = none := by
      rw [updateExistingMeta_keys]; exact hall
    simp [setupSpecificKeySubscription, hmem, hk, dget_dset_self]
  · intro meta hm hk hd
    have hf : (cb, meta) ∈ pc.filter (fun e => deliverable bc bt now e.2) :=
      List.mem_filter.mpr ⟨hm, by simpa using hd⟩
    have h2 := List.mem_map_of_mem (fun e => (e.1, e.2.keys.map uniq)) hf
    rw [resolvePass_eq]
    simpa [hk] using h2

/-- Witness for C5 at a concrete one-entry table. -/
theorem claim_C5_witness :
    (dget (setupSpecificKeySubscription [(3, metaAllThrottled)] ["z"] 3 none false) 3).map
        (fun m => m.keys) = some none
    ∧ (3, (none : Option (List String))) ∈ (resolvePass 0 true 0 [(3, metaAllThrottled)]).1 :=
  ⟨(claim_C5_sticky_all [(3, metaAllThrottled)] 3 metaAllThrottled ["z"] none false
      0 true 0 rfl rfl).1,
   (claim_C5_sticky_all [(3, metaAllThrottled)] 3 metaAllThrottled ["z"] none false
      0 true 0 rfl rfl).2 metaAllThrottled (by decide) rfl (by decide)⟩

/-! ### Trigger branch selection -/

/-- Counterexample for C4: the explicitly supplied empty-string key is
routed to the all-keys branch — a subscriber to key `"x"` is invoked
with no argument by `trigger("")`. -/
theorem claim_C4_counterexample :
    triggerTakesAllBranch (some (.single (.inl ""))) = true
    ∧ (trigger none 0 storeX sharedInit (some (.single (.inl "")))).2.2
        = [(7, none)] := by
  refine ⟨rfl, rfl⟩

/-- C4 (amended): the all-keys branch is taken exactly when no argument
is supplied or the supplied key is the empty string — detection is by
truthiness with a number-type escape, so the numeric key `0` and every
nonempty string key are treated as specific-keys triggers. -/
theorem claim_C4_branch (arg : Option TriggerArg) :
    triggerTakesAllBranch arg = true ↔
      (arg = none ∨ arg = some (.single (.inl ""))) := by
  cases arg with
  | none => simp [triggerTakesAllBranch]
  | some a =>
    cases a with
    | single k =>
      cases k with
      | inl s => simp [triggerTakesAllBranch]
      | inr n => simp [triggerTakesAllBranch]
    | list ks => simp [triggerTakesAllBranch]

/-! ### Coalescing-timer setup -/

/-- C3 fails on the code: with no per-store override and a process-wide
default of 100, `trigger` at time 5 records a due-time of 105 (fire time
of a 100ms timer) but passes the raw override — `undefined` — as the
timer delay, so the started timer's duration is not the effective
delay. -/
theorem claim_C3_timer_delay_bug :
    effectiveThrottleMs (StoreState.mk0 none false).throttleMs (some 100) = some 100
    ∧ (triggerThrottleSetup (some 100) 5 (StoreState.mk0 none false)).1.throttleData
        = some { timerDelayArg := none, callbackTime := 105 }
    ∧ (triggerThrottleSetup (some 100) 5 (StoreState.mk0 none false)).2 = some 105
    ∧ ¬ ((triggerThrottleSetup (some 100) 5 (StoreState.mk0 none false)).1.throttleData.map
          (fun d => d.timerDelayArg)
        = some (effectiveThrottleMs (StoreState.mk0 none false).throttleMs (some 100))) := by
  refine ⟨rfl, rfl, rfl, by decide⟩

/-! ### Pending purge keyed by callback identity -/

/-- C10: for a callback subscribed under several keys/tokens,
unsubscribing any single token deletes the callback's whole shared
pending entry (the purge is keyed by callback identity), while the other
subscription stays registered. -/
theorem claim_C10_purge_by_identity (st : StoreState) (sh : SharedState)
    (tok : Nat) (key key2 : String) (cb : Callback) (m : CallbackMetadata)
    (st' : StoreState) (sh' : SharedState) (hooks : List HookEvent)
    (htok : dget st.subsByNum tok = some (key, cb))
    (hpend : dget sh.pendingCallbacks cb = some m)
    (hother : cb ∈ (dget st.subscriptions key2).getD []) (hne : key2 ≠ key)
    (hok : unsubscribe st sh tok = .ok (st', sh', hooks)) :
    dget sh'.pendingCallbacks cb = none
    ∧ cb ∈ (dget st'.subscriptions key2).getD [] := by
  simp only [unsubscribe, htok] at hok
  cases hsub : dget st.subscriptions key with
  | none =>
    rw [hsub] at hok
    cases hok
  | some callbacks =>
    rw [hsub] at hok
    simp only [] at hok
    by_cases hin : cb ∈ callbacks
    · rw [if_pos hin] at hok
      by_cases hemp : callbacks.erase cb = []
      · rw [if_pos hemp] at hok
        cases hok
        constructor
        · exact dget_ddel_self _ _
        · rw [dget_ddel_ne _ hne]
          exact hother
      · rw [if_neg hemp] at hok
        cases hok
        constructor
        · exact dget_ddel_self _ _
        · rw [dget_dset_ne _ _ hne]
          exact hother
    · rw [if_neg hin] at hok
      cases hok

/-- Witness for C10: callback `5` holds tokens on keys `"a"` and `"b"`
and has a pending entry; unsubscribing the `"a"` token empties the
pending table while the `"b"` subscription survives. -/
theorem claim_C10_witness :
    dget sharedInit.pendingCallbacks 5 = none
    ∧ 5 ∈ (dget storeB.subscriptions "b").getD [] :=
  claim_C10_purge_by_identity storeAB sharedPend5 1 "a" "b" 5 metaAllThrottled
    storeB sharedInit [HookEvent.stopped "a"] rfl rfl (by decide) (by decide) rfl

/-! ### Key-tracking hooks -/

theorem dget_none_iff_len {α : Type} {d : List (String × List α)}
    (hinv : ∀ p ∈ d, p.2 ≠ []) (k : String) :
    dget d k = none ↔ ((dget d k).getD []).length = 0 := by
  cases h : dget d k with
  | none => simp
  | some l =>
    have hne := hinv (k, l) (dget_mem h)
    simp [List.length_eq_zero, hne]

theorem inv_dset {α : Type} {d : List (String × List α)}
    (hinv : ∀ p ∈ d, p.2 ≠ []) {k : String} {v : List α} (hv : v ≠ []) :
    ∀ p ∈ dset d k v, p.2 ≠ [] := by
  intro p hp
  rcases mem_dset hp with h | h
  · rw [h]
    exact hv
  · exact hinv p h

theorem inv_ddel {α : Type} {d : List (String × List α)}
    (hinv : ∀ p ∈ d, p.2 ≠ []) {k : String} :
    ∀ p ∈ ddel d k, p.2 ≠ [] :=
  fun p hp => hinv p (mem_ddel hp)

theorem subscribe_hooks (st : StoreState) (hinv : RegistryInv st)
    (cb : Callback) (rawKey : RawKey) (st' : StoreState) (tok : Nat)
    (hooks : List HookEvent)
    (hok : subscribe st cb rawKey = .ok (st', tok, hooks)) :
    hooks = (if normalizeKey rawKey ≠ Key_All
                ∧ combinedCount st (normalizeKey rawKey) = 0
             then [HookEvent.started (normalizeKey rawKey)] else [])
    ∧ combinedCount st' (normalizeKey rawKey)
        = combinedCount st (normalizeKey rawKey) + 1
    ∧ (∀ k, k ≠ normalizeKey rawKey → combinedCount st' k = combinedCount st k)
    ∧ RegistryInv st' := by
  generalize hkey : normalizeKey rawKey = key at *
  simp only [subscribe, hkey] at hok
  by_cases hemp : key = ""
  · rw [if_pos hemp] at hok
    cases hok
  · rw [if_neg hemp] at hok
    cases hsub : dget st.subscriptions key with
    | none =>
      rw [hsub] at hok
      simp only [] at hok
      cases hok
      have hlen0 : ((dget st.subscriptions key).getD []).length = 0 := by
        rw [hsub]; rfl
      refine ⟨?_, ?_, ?_, ?_, ?_⟩
      · by_cases hauto : dget st.autoSubscriptions key = none
        · have hc0 : combinedCount st key = 0 := by
            have := (dget_none_iff_len hinv.2 key).mp hauto
            simp [combinedCount, hlen0, this]
          by_cases hall : key = Key_All
          · simp [hall]
          · simp [hall, hauto, hc0]
        · have hcpos : combinedCount st key ≠ 0 := by
            intro hc
            exact hauto ((dget_none_iff_len hinv.2 key).mpr (by
              simp [combinedCount, hlen0] at hc
              simp [hc]))
          simp [hauto, hcpos]
      · simp [combinedCount, dget_dset_self, hsub]
        omega
      · intro k hk
        simp [combinedCount, dget_dset_ne _ _ hk]
      · exact inv_dset hinv.1 (by simp)
      · exact hinv.2
    | some callbacks =>
      rw [hsub] at hok
      simp only [] at hok
      cases hok
      have hne : callbacks ≠ [] := hinv.1 (key, callbacks) (dget_mem hsub)
      have hcpos : combinedCount st key ≠ 0 := by
        intro hc
        simp [combinedCount, hsub, List.length_eq_zero] at hc
        exact hne hc.1
      refine ⟨?_, ?_, ?_, ?_, ?_⟩
      · simp [hcpos]
      · simp [combinedCount, dget_dset_self, hsub]
        omega
      · intro k hk
        simp [combinedCount, dget_dset_ne _ _ hk]
      · exact inv_dset hinv.1 (by simp)
      · exact hinv.2

theorem unsubscribe_hooks (st : StoreState) (hinv : RegistryInv st)
    (sh : SharedState) (tok : Nat) (key : String) (cb : Callback)
    (st' : StoreState) (sh' : SharedState) (hooks : List HookEvent)
    (htok : dget st.subsByNum tok = some (key, cb))
    (hok : unsubscribe st sh tok = .ok (st', sh', hooks)) :
    hooks = (if key ≠ Key_All ∧ combinedCount st key = 1
             then [HookEvent.stopped key] else [])
    ∧ combinedCount st key = combinedCount st' key + 1
    ∧ (∀ k, k ≠ key → combinedCount st' k = combinedCount st k)
    ∧ RegistryInv st' := by
  simp only [unsubscribe, htok] at hok
  cases hsub : dget st.subscriptions key with
  | none =>
    rw [hsub] at hok
    cases hok
  | some callbacks =>
    rw [hsub] at hok
    simp only [] at hok
    by_cases hin : cb ∈ callbacks
    · rw [if_pos hin] at hok
      have hpos : 0 < callbacks.length :=
        List.length_pos.mpr (List.ne_nil_of_mem hin)
      have herase : (callbacks.erase cb).length = callbacks.length - 1 :=
        List.length_erase_of_mem hin
      by_cases hemp : callbacks.erase cb = []
      · rw [if_pos hemp] at hok
        cases hok
        have hlen1 : callbacks.length = 1 := by
          rw [hemp] at herase
          simp at herase
          omega
        refine ⟨?_, ?_, ?_, ?_, ?_⟩
        · by_cases hauto : dget st.autoSubscriptions key = none
          · have hc1 : combinedCount st key = 1 := by
              have h0 := (dget_none_iff_len hinv.2 key).mp hauto
              simp [combinedCount, hsub, hlen1, h0]

            by_cases hall : key = Key_All
            · simp [hall]
            · simp [hall, hauto, hc1]
          · have hne1 : combinedCount st key ≠ 1 := by
              intro hc
              apply hauto
              apply (dget_none_iff_len hinv.2 key).mpr
              simp only [combinedCount, hsub, Option.getD_some, hlen1] at hc
              omega
            simp [hauto, hne1]
        · simp [combinedCount, hsub, hlen1, dget_ddel_self]
          omega
        · intro k hk
          simp [combinedCount, dget_ddel_ne _ hk]
        · exact inv_ddel hinv.1
        · exact hinv.2
      · rw [if_neg hemp] at hok
        cases hok
        have hge1 : 1 ≤ (callbacks.erase cb).length :=
          List.length_pos.mpr hemp
        refine ⟨?_, ?_, ?_, ?_, ?_⟩
        · have hne1 : combinedCount st key ≠ 1 := by
            simp [combinedCount, hsub]
            omega
          simp [hne1]
        · simp [combinedCount, hsub, dget_dset_self]
          omega
        · intro k hk
          simp [combinedCount, dget_dset_ne _ _ hk]
        · exact inv_dset hinv.1 hemp
        · exact hinv.2
    · rw [if_neg hin] at hok
      cases hok

theorem trackAuto_hooks (st : StoreState) (hinv : RegistryInv st)
    (sub : AutoSubscription) :
    (trackAutoSubscription st sub).2 =
        (if sub.key ≠ Key_All ∧ combinedCount st sub.key = 0
         then [HookEvent.started sub.key] else [])
    ∧ combinedCount (trackAutoSubscription st sub).1 sub.key
        = combinedCount st sub.key + 1
    ∧ (∀ k, k ≠ sub.key →
        combinedCount (trackAutoSubscription st sub).1 k = combinedCount st k)
    ∧ RegistryInv (trackAutoSubscription st sub).1 := by
  cases hsub : dget st.autoSubscriptions sub.key with
  | none =>
    have hlen0 : ((dget st.autoSubscriptions sub.key).getD []).length = 0 := by
      rw [hsub]; rfl
    refine ⟨?_, ?_, ?_, ?_, ?_⟩
    · by_cases hexp : dget st.subscriptions sub.key = none
      · have hc0 : combinedCount st sub.key = 0 := by
          have := (dget_none_iff_len hinv.1 sub.key).mp hexp
          simp [combinedCount, hlen0, this]
        by_cases hall : sub.key = Key_All
        · simp only [trackAutoSubscription, hsub]
          simp [hall]
        · simp only [trackAutoSubscription, hsub]
          simp [hall, hexp, hc0]
      · have hcpos : combinedCount st sub.key ≠ 0 := by
          intro hc
          exact hexp ((dget_none_iff_len hinv.1 sub.key).mpr (by
            simp [combinedCount, hlen0] at hc
            simp [hc]))
        simp only [trackAutoSubscription, hsub]
        simp [hexp, hcpos]
    · simp [trackAutoSubscription, hsub, combinedCount, dget_dset_self]
    · intro k hk
      simp [trackAutoSubscription, hsub, combinedCount, dget_dset_ne _ _ hk]
    · simp only [trackAutoSubscription, hsub]
      exact hinv.1
    · simp only [trackAutoSubscription, hsub]
      exact inv_dset hinv.2 (by simp)
  | some callbacks =>
    have hne : callbacks ≠ [] := hinv.2 (sub.key, callbacks) (dget_mem hsub)
    have hcpos : combinedCount st sub.key ≠ 0 := by
      intro hc
      simp [combinedCount, hsub, List.length_eq_zero] at hc
      exact hne hc.2
    refine ⟨?_, ?_, ?_, ?_, ?_⟩
    · simp [trackAutoSubscription, hsub, hcpos]
    · simp [trackAutoSubscription, hsub, combinedCount, dget_dset_self]
      omega
    · intro k hk
      simp [trackAutoSubscription, hsub, combinedCount, dget_dset_ne _ _ hk]
    · simp only [trackAutoSubscription, hsub]
      exact hinv.1
    · simp only [trackAutoSubscription, hsub]
      exact inv_dset hinv.2 (by simp)

theorem removeAuto_hooks (st : StoreState) (hinv : RegistryInv st)
    (sh : SharedState) (sub : AutoSubscription)
    (st' : StoreState) (sh' : SharedState) (hooks : List HookEvent)
    (hok : removeAutoSubscription st sh sub = .ok (st', sh', hooks)) :
    hooks = (if sub.key ≠ Key_All ∧ combinedCount st sub.key = 1
             then [HookEvent.stopped sub.key] else [])
    ∧ combinedCount st sub.key = combinedCount st' sub.key + 1
    ∧ (∀ k, k ≠ sub.key → combinedCount st' k = combinedCount st k)
    ∧ RegistryInv st' := by
  simp only [removeAutoSubscription] at hok
  cases hsub : dget st.autoSubscriptions sub.key with
  | none =>
    rw [hsub] at hok
    cases hok
  | some subs =>
    rw [hsub] at hok
    simp only [] at hok
    by_cases hone : (subs.filter (fun s => s ≠ sub)).length + 1 = subs.length
    · rw [if_pos hone] at hok
      by_cases hemp : subs.filter (fun s => s ≠ sub) = []
      · rw [if_pos hemp] at hok
        cases hok
        have hlen1 : subs.length = 1 := by
          rw [hemp] at hone
          simpa using hone.symm
        refine ⟨?_, ?_, ?_, ?_, ?_⟩
        · by_cases hexp : dget st.subscriptions sub.key = none
          · have hc1 : combinedCount st sub.key = 1 := by
              have h0 := (dget_none_iff_len hinv.1 sub.key).mp hexp
              simp [combinedCount, hsub, hlen1, h0]
            by_cases hall : sub.key = Key_All
            · simp [hall]
            · simp [hall, hexp, hc1]
          · have hne1 : combinedCount st sub.key ≠ 1 := by
              intro hc
              apply hexp
              apply (dget_none_iff_len hinv.1 sub.key).mpr
              simp only [combinedCount, hsub, Option.getD_some, hlen1] at hc
              omega
            simp [hexp, hne1]
        · simp [combinedCount, hsub, hlen1, dget_ddel_self]
        · intro k hk
          simp [combinedCount, dget_ddel_ne _ hk]
        · exact hinv.1
        · exact inv_ddel hinv.2
      · rw [if_neg hemp] at hok
        cases hok
        have hge1 : 1 ≤ (subs.filter (fun s => s ≠ sub)).length :=
          List.length_pos.mpr hemp
        have h2 : 2 ≤ subs.length := by omega
        refine ⟨?_, ?_, ?_, ?_, ?_⟩
        · have hne1 : combinedCount st sub.key ≠ 1 := by
            simp only [combinedCount, hsub, Option.getD_some]
            omega
          simp [hne1]
        · simp only [combinedCount, hsub, Option.getD_some, dget_dset_self]
          omega
        · intro k hk
          simp [combinedCount, dget_dset_ne _ _ hk]
        · exact hinv.1
        · exact inv_dset hinv.2 hemp
    · rw [if_neg hone] at hok
      cases hok

/-- C9: for every non-ALL key and any success of `subscribe`,
`unsubscribe`, `trackAutoSubscription` or `removeAutoSubscription` on a
store satisfying the registry invariant, the started-tracking hook fires
exactly when the key's combined (explicit + auto) subscriber count goes
from 0 to 1 and the stopped-tracking hook exactly when it goes from 1
to 0 — each operation changes exactly its own key's count, by exactly
one, and preserves the invariant, so the characterization holds across
any interleaving. -/
theorem claim_C9_tracking_hooks (st : StoreState) (hinv : RegistryInv st) :
    (∀ cb rawKey st' tok hooks, subscribe st cb rawKey = .ok (st', tok, hooks) →
      hooks = (if normalizeKey rawKey ≠ Key_All
                  ∧ combinedCount st (normalizeKey rawKey) = 0
               then [HookEvent.started (normalizeKey rawKey)] else [])
      ∧ combinedCount st' (normalizeKey rawKey)
          = combinedCount st (normalizeKey rawKey) + 1
      ∧ (∀ k, k ≠ normalizeKey rawKey → combinedCount st' k = combinedCount st k)
      ∧ RegistryInv st')
    ∧ (∀ sh tok key cb st' sh' hooks, dget st.subsByNum tok = some (key, cb) →
        unsubscribe st sh tok = .ok (st', sh', hooks) →
      hooks = (if key ≠ Key_All ∧ combinedCount st key = 1
               then [HookEvent.stopped key] else [])
      ∧ combinedCount st key = combinedCount st' key + 1
      ∧ (∀ k, k ≠ key → combinedCount st' k = combinedCount st k)
      ∧ RegistryInv st')
    ∧ (∀ sub : AutoSubscription,
      (trackAutoSubscription st sub).2 =
          (if sub.key ≠ Key_All ∧ combinedCount st sub.key = 0
           then [HookEvent.started sub.key] else [])
      ∧ combinedCount (trackAutoSubscription st sub).1 sub.key
          = combinedCount st sub.key + 1
      ∧ (∀ k, k ≠ sub.key →
          combinedCount (trackAutoSubscription st sub).1 k = combinedCount st k)
      ∧ RegistryInv (trackAutoSubscription st sub).1)
    ∧ (∀ sh sub st' sh' hooks,
        removeAutoSubscription st sh sub = .ok (st', sh', hooks) →
      hooks = (if sub.key ≠ Key_All ∧ combinedCount st sub.key = 1
               then [HookEvent.stopped sub.key] else [])
      ∧ combinedCount st sub.key = combinedCount st' sub.key + 1
      ∧ (∀ k, k ≠ sub.key → combinedCount st' k = combinedCount st k)
      ∧ RegistryInv st') :=
  ⟨fun cb rawKey st' tok hooks hok =>
      subscribe_hooks st hinv cb rawKey st' tok hooks hok,
   fun sh tok key cb st' sh' hooks htok hok =>
      unsubscribe_hooks st hinv sh tok key cb st' sh' hooks htok hok,
   fun sub => trackAuto_hooks st hinv sub,
   fun sh sub st' sh' hooks hok =>
      removeAuto_hooks st hinv sh sub st' sh' hooks hok⟩

/-- Witness for C9: concrete successes of all four registry operations
(a second subscriber appearing, a 1-to-0 unsubscribe, a 0-to-1 auto
track, a 1-to-0 auto removal). -/
theorem claim_C9_witness :
    ([] : List HookEvent) =
        (if normalizeKey (Sum.inl "x") ≠ Key_All
            ∧ combinedCount storeX (normalizeKey (Sum.inl "x")) = 0
         then [HookEvent.started (normalizeKey (Sum.inl "x"))] else [])
    ∧ [HookEvent.stopped "a"] =
        (if "a" ≠ Key_All ∧ combinedCount storeAB "a" = 1
         then [HookEvent.stopped "a"] else [])
    ∧ (trackAutoSubscription storeX autoY).2 =
        (if autoY.key ≠ Key_All ∧ combinedCount storeX autoY.key = 0
         then [HookEvent.started autoY.key] else [])
    ∧ [HookEvent.stopped "y"] =
        (if autoY.key ≠ Key_All ∧ combinedCount storeAutoY autoY.key = 1
         then [HookEvent.stopped autoY.key] else []) :=
  ⟨((claim_C9_tracking_hooks storeX (by constructor <;> decide)).1
      8 (Sum.inl "x") storeX2 2 [] rfl).1,
   ((claim_C9_tracking_hooks storeAB (by constructor <;> decide)).2.1
      sharedPend5 1 "a" 5 storeB sharedInit [HookEvent.stopped "a"] rfl rfl).1,
   ((claim_C9_tracking_hooks storeX (by constructor <;> decide)).2.2.1 autoY).1,
   ((claim_C9_tracking_hooks storeAutoY (by constructor <;> decide)).2.2.2
      sharedPend6 autoY (StoreState.mk0 none false) sharedInit
      [HookEvent.stopped "y"] rfl).1⟩

/-! ### Unsubscribe cancellation -/

theorem dget_ddel_none {κ α : Type} [DecidableEq κ] {d : List (κ × α)} {k : κ}
    (k' : κ) (h : dget d k = none) : dget (ddel d k') k = none := by
  by_cases hk : k = k'
  · subst hk
    exact dget_ddel_self d k
  · rw [dget_ddel_ne d hk]
    exact h

theorem unsubscribe_sh (st : StoreState) (sh : SharedState) (tok : Nat)
    (st' : StoreState) (sh' : SharedState) (hooks : List HookEvent)
    (hok : unsubscribe st sh tok = .ok (st', sh', hooks)) :
    ∃ key cb, dget st.subsByNum tok = some (key, cb)
      ∧ sh'.pendingCallbacks = ddel sh.pendingCallbacks cb := by
  simp only [unsubscribe] at hok
  cases htok : dget st.subsByNum tok with
  | none =>
    rw [htok] at hok
    cases hok
  | some kc =>
    obtain ⟨key, cb⟩ := kc
    rw [htok] at hok
    simp only [] at hok
    refine ⟨key, cb, rfl, ?_⟩
    cases hsub : dget st.subscriptions key with
    | none =>
      rw [hsub] at hok
      cases hok
    | some callbacks =>
      rw [hsub] at hok
      simp only [] at hok
      by_cases hin : cb ∈ callbacks
      · rw [if_pos hin] at hok
        by_cases hemp : callbacks.erase cb = []
        · rw [if_pos hemp] at hok
          cases hok
          rfl
        · rw [if_neg hemp] at hok
          cases hok
          rfl
      · rw [if_neg hin] at hok
        cases hok

theorem removeAuto_sh (st : StoreState) (sh : SharedState) (sub : AutoSubscription)
    (st' : StoreState) (sh' : SharedState) (hooks : List HookEvent)
    (hok : removeAutoSubscription st sh sub = .ok (st', sh', hooks)) :
    sh'.pendingCallbacks = ddel sh.pendingCallbacks sub.callback := by
  simp only [removeAutoSubscription] at hok
  cases hsub : dget st.autoSubscriptions sub.key with
  | none =>
    rw [hsub] at hok
    cases hok
  | some subs =>
    rw [hsub] at hok
    simp only [] at hok
    by_cases hone : (subs.filter (fun s => s ≠ sub)).length + 1 = subs.length
    · rw [if_pos hone] at hok
      by_cases hemp : subs.filter (fun s => s ≠ sub) = []
      · rw [if_pos hemp] at hok
        cases hok
        rfl
      · rw [if_neg hemp] at hok
        cases hok
        rfl
    · rw [if_neg hone] at hok
      cases hok

theorem resolvePass_absent (bc : Int) (bt : Bool) (now : Nat) (pc : CallbackMap)
    (cb : Callback) (h : dget pc cb = none) :
    (∀ p, (cb, p) ∉ (resolvePass bc bt now pc).1)
    ∧ dget (resolvePass bc bt now pc).2 cb = none := by
  have h' := dget_eq_none.mp h
  rw [resolvePass_eq]
  constructor
  · intro p hp
    apply h'
    obtain ⟨e, he, heq⟩ := List.mem_map.mp hp
    have he1 : e.1 = cb := congrArg Prod.fst heq
    rw [← he1]
    exact List.mem_map_of_mem Prod.fst (List.mem_of_mem_filter he)
  · apply dget_eq_none.mpr
    intro hc
    apply h'
    obtain ⟨e, he, heq⟩ := List.mem_map.mp hc
    rw [← heq]
    exact List.mem_map_of_mem Prod.fst (List.mem_of_mem_filter he)

theorem doPass_absent (now : Nat) (r : Bool) (s : SharedState) (cb : Callback)
    (h : dget s.pendingCallbacks cb = none) :
    dget (doPass now r s).1.pendingCallbacks cb = none
    ∧ ∀ p, (cb, p) ∉ (doPass now r s).2 := by
  have := resolvePass_absent s.triggerBlockCount s.bypassThrottle now
    s.pendingCallbacks cb h
  exact ⟨this.2, this.1⟩

theorem runPasses_absent (now : Nat) :
    ∀ (reqs : List Bool) (s : SharedState) (cb : Callback),
      dget s.pendingCallbacks cb = none →
      dget (runPasses now reqs s).1.pendingCallbacks cb = none
      ∧ ∀ p, (cb, p) ∉ (runPasses now reqs s).2.2 := by
  intro reqs
  induction reqs with
  | nil =>
    intro s cb h
    exact doPass_absent now false s cb h
  | cons r rs ih =>
    intro s cb h
    have hd := doPass_absent now r s cb h
    simp only [runPasses]
    by_cases hp : (doPass now r s).1.triggerPending
    · rw [if_pos hp]
      have hrec := ih (doPass now r s).1 cb hd.1
      refine ⟨hrec.1, ?_⟩
      intro p hin
      rcases List.mem_append.mp hin with hin | hin
      · exact hd.2 p hin
      · exact hrec.2 p hin
    · rw [if_neg hp]
      exact hd

theorem resolveCallbacks_absent (now : Nat) (reqs : List Bool) (s : SharedState)
    (cb : Callback) (h : dget s.pendingCallbacks cb = none) :
    dget (resolveCallbacks now reqs s).1.pendingCallbacks cb = none
    ∧ ∀ p, (cb, p) ∉ (resolveCallbacks now reqs s).2.2 := by
  by_cases ht : s.isTriggering
  · simp only [resolveCallbacks, if_pos ht]
    exact ⟨h, by intro p hp; cases hp⟩
  · simp only [resolveCallbacks, if_neg ht]
    exact runPasses_absent now reqs s cb h

theorem invoked_notin_hooks (sid : Nat) (hooks : List HookEvent)
    (cb : Callback) (p : Option (List String)) :
    Event.invoked cb p ∉ hooks.map (tagHook sid) := by
  intro h
  obtain ⟨e, _, he⟩ := List.mem_map.mp h
  cases e <;> simp [tagHook] at he

theorem invoked_mem_map {delivered : List Invocation} {cb : Callback}
    {p : Option (List String)}
    (h : Event.invoked cb p ∈ delivered.map (fun d => Event.invoked d.1 d.2)) :
    (cb, p) ∈ delivered := by
  obtain ⟨e, he, heq⟩ := List.mem_map.mp h
  have h1 : e.1 = cb := by
    cases heq
    rfl
  have h2 : e.2 = p := by
    cases heq
    rfl
  have : e = (cb, p) := by
    rw [← h1, ← h2]
  rw [← this]
  exact he

theorem step_absent (w : World) (op : Op) (cb : Callback)
    (hnt : op.isTrigger = false)
    (h : dget w.shared.pendingCallbacks cb = none)
    (w' : World) (evts : List Event) (hok : step w op = .ok (w', evts)) :
    dget w'.shared.pendingCallbacks cb = none
    ∧ ∀ p, Event.invoked cb p ∉ evts := by
  cases op with
  | subscribeOp sid cb0 rawKey =>
    simp only [step] at hok
    cases hst : dget w.stores sid with
    | none => rw [hst] at hok; cases hok
    | some st =>
      rw [hst] at hok
      simp only [] at hok
      cases hs : subscribe st cb0 rawKey with
      | error e => rw [hs] at hok; cases hok
      | ok r =>
        obtain ⟨st', tok, hooks⟩ := r
        rw [hs] at hok
        simp only [] at hok
        cases hok
        exact ⟨h, fun p => invoked_notin_hooks sid hooks cb p⟩
  | unsubscribeOp sid tok =>
    simp only [step] at hok
    cases hst : dget w.stores sid with
    | none => rw [hst] at hok; cases hok
    | some st =>
      rw [hst] at hok
      simp only [] at hok
      cases hs : unsubscribe st w.shared tok with
      | error e => rw [hs] at hok; cases hok
      | ok r =>
        obtain ⟨st', sh', hooks⟩ := r
        rw [hs] at hok
        simp only [] at hok
        cases hok
        obtain ⟨key, c, _, hsh⟩ := unsubscribe_sh st w.shared tok st' sh' hooks hs
        refine ⟨?_, fun p => invoked_notin_hooks sid hooks cb p⟩
        rw [hsh]
        exact dget_ddel_none c h
  | triggerOp sid currentTime arg =>
    simp [Op.isTrigger] at hnt
  | trackAutoOp sid sub =>
    simp only [step] at hok
    cases hst : dget w.stores sid with
    | none => rw [hst] at hok; cases hok
    | some st =>
      rw [hst] at hok
      simp only [] at hok
      cases hok
      exact ⟨h, fun p => invoked_notin_hooks sid (trackAutoSubscription st sub).2 cb p⟩
  | removeAutoOp sid sub =>
    simp only [step] at hok
    cases hst : dget w.stores sid with
    | none => rw [hst] at hok; cases hok
    | some st =>
      rw [hst] at hok
      simp only [] at hok
      cases hs : removeAutoSubscription st w.shared sub with
      | error e => rw [hs] at hok; cases hok
      | ok r =>
        obtain ⟨st', sh', hooks⟩ := r
        rw [hs] at hok
        simp only [] at hok
        cases hok
        have hsh := removeAuto_sh st w.shared sub st' sh' hooks hs
        refine ⟨?_, fun p => invoked_notin_hooks sid hooks cb p⟩
        rw [hsh]
        exact dget_ddel_none sub.callback h
  | timerFireOp sid currentTime =>
    simp only [step] at hok
    cases hst : dget w.stores sid with
    | none => rw [hst] at hok; cases hok
    | some st =>
      rw [hst] at hok
      simp only [] at hok
      cases hok
      have := resolveCallbacks_absent currentTime [] w.shared cb h
      refine ⟨this.1, ?_⟩
      intro p hp
      exact this.2 p (invoked_mem_map hp)
  | pushBlockOp =>
    simp only [step] at hok
    cases hok
    exact ⟨h, by intro p hp; cases hp⟩
  | popBlockOp currentTime =>
    simp only [step] at hok
    cases hpop : popTriggerBlock w.shared currentTime with
    | error e => rw [hpop] at hok; cases hok
    | ok r =>
      rw [hpop] at hok
      simp only [] at hok
      cases hok
      simp only [popTriggerBlock] at hpop
      by_cases hneg : w.shared.triggerBlockCount - 1 < 0
      · rw [if_pos hneg] at hpop
        cases hpop
      · rw [if_neg hneg] at hpop
        by_cases hz : w.shared.triggerBlockCount - 1 = 0
        · rw [if_pos hz] at hpop
          cases hpop
          have := resolveCallbacks_absent currentTime []
            { w.shared with triggerBlockCount := w.shared.triggerBlockCount - 1 } cb h
          refine ⟨this.1, ?_⟩
          intro p hp
          exact this.2 p (invoked_mem_map hp)
        · rw [if_neg hz] at hpop
          cases hpop
          exact ⟨h, by intro p hp; cases hp⟩
  | setThrottleOp enabled currentTime =>
    simp only [step] at hok
    cases hok
    have := resolveCallbacks_absent currentTime []
      { w.shared with bypassThrottle := !enabled } cb h
    refine ⟨this.1, ?_⟩
    intro p hp
    exact this.2 p (invoked_mem_map hp)

theorem run_absent (cb : Callback) :
    ∀ (ops : List Op) (w : World),
      dget w.shared.pendingCallbacks cb = none →
      (∀ op ∈ ops, op.isTrigger = false) →
      dget ((run w ops).1).shared.pendingCallbacks cb = none
      ∧ ∀ p, Event.invoked cb p ∉ (run w ops).2 := by
  intro ops
  induction ops with
  | nil =>
    intro w h _
    exact ⟨h, by intro p hp; cases hp⟩
  | cons op rest ih =>
    intro w h hnt
    simp only [run]
    cases hs : step w op with
    | error e =>
      exact ⟨h, by intro p hp; cases hp⟩
    | ok p =>
      obtain ⟨w', evts⟩ := p
      have h1 := step_absent w op cb (hnt op (by simp)) h w' evts hs
      have h2 := ih w' h1.1 (fun o ho => hnt o (by simp [ho]))
      refine ⟨h2.1, ?_⟩
      intro pay hp
      rcases List.mem_append.mp hp with hp | hp
      · exact h1.2 pay hp
      · exact h2.2 pay hp

/-- C7: unsubscribing a callback (by token or by auto-subscription
record) purges its entry from the shared pending table, and from any
state where a callback has no pending entry, a run of top-level
operations containing no trigger call never invokes that callback — so
a trigger queued before the unsubscribe yields zero invocations after
removal. -/
theorem claim_C7_unsubscribe_cancels :
    (∀ st sh tok key cb st' sh' hooks,
      dget st.subsByNum tok = some (key, cb) →
      unsubscribe st sh tok = .ok (st', sh', hooks) →
      dget sh'.pendingCallbacks cb = none)
    ∧ (∀ st sh sub st' sh' hooks,
      removeAutoSubscription st sh sub = .ok (st', sh', hooks) →
      dget sh'.pendingCallbacks sub.callback = none)
    ∧ (∀ (w : World) (ops : List Op) (cb : Callback),
      dget w.shared.pendingCallbacks cb = none →
      (∀ op ∈ ops, op.isTrigger = false) →
      dget ((run w ops).1).shared.pendingCallbacks cb = none
      ∧ ∀ p, Event.invoked cb p ∉ (run w ops).2) := by
  refine ⟨?_, ?_, ?_⟩
  · intro st sh tok key cb st' sh' hooks htok hok
    obtain ⟨key2, cb2, htok2, hsh⟩ := unsubscribe_sh st sh tok st' sh' hooks hok
    rw [htok] at htok2
    cases htok2
    rw [hsh]
    exact dget_ddel_self _ _
  · intro st sh sub st' sh' hooks hok
    rw [removeAuto_sh st sh sub st' sh' hooks hok]
    exact dget_ddel_self _ _
  · intro w ops cb h hnt
    exact run_absent cb ops w h hnt

/-- Witness for C7: after unsubscribing callback `5` (purging its
pending entry), a run of block push/pop and throttle toggles invokes
nothing for it. -/
theorem claim_C7_witness :
    dget sharedInit.pendingCallbacks 5 = none
    ∧ dget ((run { stores := [(0, storeB)], shared := sharedInit,
                   defaultThrottleMs := none }
              [Op.pushBlockOp, Op.popBlockOp 0,
               Op.setThrottleOp false 0]).1).shared.pendingCallbacks 5 = none :=
  ⟨claim_C7_unsubscribe_cancels.1 storeAB sharedPend5 1 "a" 5 storeB sharedInit
      [HookEvent.stopped "a"] rfl rfl,
   (claim_C7_unsubscribe_cancels.2.2
      { stores := [(0, storeB)], shared := sharedInit, defaultThrottleMs := none }
      [Op.pushBlockOp, Op.popBlockOp 0, Op.setThrottleOp false 0] 5 rfl
      (by decide)).1⟩

end ReSub
